import Mathlib

/-!
Verification development for the WeChat "PPT to PDF" extraction pipeline
(src/api/main_standalone.py).  The pipeline's pure core is embedded
shallowly: HTML parsing, HTTP transfer, PIL image decoding and reportlab
rendering are external collaborators, so a parsed document is its ordered
list of img tags, a downloaded payload carries what PIL would decode from
it, network behaviour is an oracle from URL to optional payload, and a
built PDF is its ordered list of drawn pages.  Python floats appearing in
the source (aspect-ratio thresholds, page geometry, scale factors) are
modelled as exact rationals.
-/

namespace PPT

/-- Python truthiness of an optional string: None and the empty string are falsy. -/
def pyTruthy : Option String → Bool
  | none => false
  | some s => if s = "" then false else true

/-- Python `a or b` for optional strings: `a` when truthy, else `b`. -/
def pyOrStr (a b : Option String) : Option String :=
  if pyTruthy a then a else b

/-- An img tag as surfaced by the HTML parser: its optional `data-src` and
`src` attribute values.  A parsed document is its ordered list of img tags. -/
structure ImgTag where
  dataSrc : Option String
  src : Option String
deriving DecidableEq

/-- Model of `extract_image_urls` (main_standalone.py lines 55-62): for each img
tag in document order compute `img.get("data-src") or img.get("src")` and
append it when truthy. -/
def extract_image_urls (doc : List ImgTag) : List String :=
  doc.filterMap fun img =>
    let chosen := pyOrStr img.dataSrc img.src
    if pyTruthy chosen then chosen else none

/-- Characters `urllib.parse` accepts inside a URL scheme. -/
def schemeChar (c : Char) : Bool :=
  c.isAlpha || c.isDigit || c == '+' || c == '-' || c == '.'

/-- Index of the first colon in a character list, if any. -/
def findColon : List Char → Option Nat
  | [] => none
  | c :: cs => if c = ':' then some 0 else (findColon cs).map (· + 1)

/-- Drop a leading `scheme:` the way `urllib.parse.urlsplit` does: the text
before the first colon must be non-empty, start with a letter and consist of
scheme characters; otherwise the URL is left untouched. -/
def stripScheme (cs : List Char) : List Char :=
  match findColon cs with
  | none => cs
  | some i =>
    if 0 < i ∧ (cs.headD ' ').isAlpha = true ∧ (cs.take i).all schemeChar = true then
      cs.drop (i + 1)
    else cs

/-- Model of the `netloc` component of `urllib.parse.urlparse`: present only
after a literal `//`, extending to the first `/`, `?` or `#`. -/
def netlocOf (url : String) : String :=
  match stripScheme url.toList with
  | '/' :: '/' :: rest => ⟨rest.takeWhile fun c => c != '/' && c != '?' && c != '#'⟩
  | _ => ""

/-- Python's substring test `needle in hay` on character lists. -/
def sublistB (needle : List Char) : List Char → Bool
  | [] => needle.isEmpty
  | c :: rest => needle.isPrefixOf (c :: rest) || sublistB needle rest

/-- Model of `domain_allowed` (lines 65-67): substring containment of any
allowed domain in the URL's netloc. -/
def domain_allowed (url : String) (allowed_domains : List String) : Bool :=
  allowed_domains.any fun domain => sublistB domain.toList (netlocOf url).toList

/-- Python slice `l[:stop]` for a possibly negative stop index. -/
def pySliceTo {α : Type} (l : List α) (stop : Int) : List α :=
  if stop < 0 then l.take ((l.length : Int) + stop).toNat
  else l.take stop.toNat

/-- Model of `apply_edge_trimming` (lines 70-74), faithful to the Python
slicing, including the negative-stop behaviour of
`trimmed[: len(trimmed) - trailing]` when `trailing` exceeds the length. -/
def apply_edge_trimming (urls : List String) (leading trailing : Nat) : List String :=
  let trimmed := if leading ≠ 0 then urls.drop leading else urls
  if trailing ≠ 0 then pySliceTo trimmed ((trimmed.length : Int) - (trailing : Int))
  else trimmed

/-- Model of `FilterSettings` (lines 27-35).  Counts are naturals; the float
thresholds are exact rationals.  The pydantic field constraints are the
`Valid` predicate below. -/
structure FilterSettings where
  allowed_domains : List String
  min_area : Nat
  min_width : Nat
  min_height : Nat
  aspect_ratio_min : ℚ
  aspect_ratio_max : ℚ
  trim_leading : Nat
  trim_trailing : Nat

/-- Pydantic constraints on `FilterSettings`: `conint(ge=1)` on the three
size fields and `confloat(gt=0)` on the two aspect bounds. -/
def FilterSettings.Valid (f : FilterSettings) : Prop :=
  1 ≤ f.min_area ∧ 1 ≤ f.min_width ∧ 1 ≤ f.min_height ∧
    0 < f.aspect_ratio_min ∧ 0 < f.aspect_ratio_max

instance (f : FilterSettings) : Decidable f.Valid :=
  inferInstanceAs (Decidable (1 ≤ f.min_area ∧ 1 ≤ f.min_width ∧ 1 ≤ f.min_height ∧
    0 < f.aspect_ratio_min ∧ 0 < f.aspect_ratio_max))

/-- Default `FilterSettings` (lines 28-35); 0.6 and 1.8 denote the exact
rationals 3/5 and 9/5 (written with `mkRat` so they evaluate). -/
def defaultFilters : FilterSettings :=
  ⟨["mmbiz.qpic.cn"], 300000, 600, 400, mkRat 3 5, mkRat 9 5, 2, 2⟩

/-- A downloaded image payload.  The raw bytes are opaque (identified by
`ident`); `decoded` is what `PIL.Image.open` yields on them: the pixel
(width, height), or none when decoding raises. -/
structure ImgBytes where
  ident : Nat
  decoded : Option (Nat × Nat)
deriving DecidableEq

/-- Model of `image_passes_filters` (lines 94-110), with the source's check
order: decode (failure rejects), dimension minima, area minimum, then the
inclusive aspect-ratio window, where a zero height yields ratio zero. -/
def image_passes_filters (img_bytes : ImgBytes) (filters : FilterSettings) : Bool :=
  match img_bytes.decoded with
  | none => false
  | some (width, height) =>
    let area := width * height
    let aspect : ℚ := if height ≠ 0 then mkRat width height else 0
    if width < filters.min_width ∨ height < filters.min_height then false
    else if area < filters.min_area then false
    else if ¬ (filters.aspect_ratio_min ≤ aspect ∧ aspect ≤ filters.aspect_ratio_max) then false
    else true

/-- Landscape A4 page width in points, exactly: reportlab's `landscape(A4)`
with one millimetre equal to 72/25.4 points. -/
def page_width : ℚ := 297 * (360 / 127)

/-- Landscape A4 page height in points. -/
def page_height : ℚ := 210 * (360 / 127)

/-- One drawn PDF page: which payload was drawn, at what size and position. -/
structure PdfPage where
  source : ImgBytes
  draw_w : ℚ
  draw_h : ℚ
  x : ℚ
  y : ℚ
deriving DecidableEq

/-- The page `build_pdf` draws for a payload decoded at (width, height):
uniform scale `min(page_width/width, page_height/height, 1.0)`, centred. -/
def drawPage (img_bytes : ImgBytes) (width height : Nat) : PdfPage :=
  let scale := min (min (page_width / width) (page_height / height)) 1
  let draw_w := (width : ℚ) * scale
  let draw_h := (height : ℚ) * scale
  ⟨img_bytes, draw_w, draw_h, (page_width - draw_w) / 2, (page_height - draw_h) / 2⟩

/-- Model of `build_pdf` (lines 113-132).  `Image.open` on an undecodable
payload raises, and a zero dimension would raise `ZeroDivisionError`; an
exception aborts the whole loop, modelled as none. -/
def build_pdf : List ImgBytes → Option (List PdfPage)
  | [] => some []
  | img_bytes :: rest =>
    match img_bytes.decoded with
    | some (width, height) =>
      if width ≠ 0 ∧ height ≠ 0 then
        match build_pdf rest with
        | some pages => some (drawPage img_bytes width height :: pages)
        | none => none
      else none
    | none => none

/-- One request's network behaviour for image downloads: for each URL either
the downloaded payload, or none when `download_image` raises. -/
def DownloadOracle : Type := String → Option ImgBytes

/-- Model of the download loop of `process` (lines 157-164): a failed
download is skipped via `continue`; survivors that pass the quality filter
are appended in order. -/
def downloadStageSync (download : DownloadOracle) (filters : FilterSettings) :
    List String → List ImgBytes
  | [] => []
  | url :: rest =>
    match download url with
    | none => downloadStageSync download filters rest
    | some img_bytes =>
      if image_passes_filters img_bytes filters then
        img_bytes :: downloadStageSync download filters rest
      else downloadStageSync download filters rest

/-- Model of the download loop of `event_generator` (lines 225-234): the
filter check sits inside the `try`, but `image_passes_filters` never raises,
so again only download failures are skipped. -/
def downloadStageStream (download : DownloadOracle) (filters : FilterSettings) :
    List String → List ImgBytes
  | [] => []
  | url :: rest =>
    match download url with
    | none => downloadStageStream download filters rest
    | some img_bytes =>
      if image_passes_filters img_bytes filters then
        img_bytes :: downloadStageStream download filters rest
      else downloadStageStream download filters rest

/-- An HTTP error response as raised through `HTTPException`. -/
structure HTTPError where
  status_code : Nat
  detail : String
deriving DecidableEq

/-- Outcome of `fetch_html` (lines 77-80): the parsed document on success
(HTML is consumed only through `extract_image_urls`, so a document is its
img-tag list), an `httpx.HTTPStatusError` carrying the upstream status, or
any other exception. -/
inductive FetchResult where
  | ok (doc : List ImgTag)
  | statusError (code : Nat)
  | transportError
deriving DecidableEq

/-- Model of the synchronous endpoint `process` (lines 135-172).  The final
`build_pdf` call sits outside every handler; were it to raise, the framework
would answer 500, modelled by the last branch (unreachable for valid
settings since kept images passed the quality filter). -/
def process (fetch : FetchResult) (download : DownloadOracle)
    (filters : FilterSettings) : Except HTTPError (List PdfPage) :=
  match fetch with
  | .statusError code => .error ⟨code, "无法获取文章内容"⟩
  | .transportError => .error ⟨502, "抓取文章失败"⟩
  | .ok doc =>
    let urls := extract_image_urls doc
    if urls = [] then .error ⟨404, "未找到图片标签"⟩
    else
      let urls2 := apply_edge_trimming
        (urls.filter fun u => domain_allowed u filters.allowed_domains)
        filters.trim_leading filters.trim_trailing
      if urls2 = [] then .error ⟨404, "过滤后没有图片 URL"⟩
      else
        let kept := downloadStageSync download filters urls2
        if kept = [] then .error ⟨404, "没有符合条件的 PPT 图片"⟩
        else
          match build_pdf kept with
          | some pages => .ok pages
          | none => .error ⟨500, "Internal Server Error"⟩

/-- One decoded SSE frame of the progressive endpoint: its stage, optional
progress percentage, optional error-kind tag and optional PDF payload (the
JSON/base64 wire encoding is external serialisation, modelled as identity). -/
structure Event where
  stage : String
  progress : Option Nat
  error_type : Option String
  pdf_data : Option (List PdfPage)
deriving DecidableEq

/-- A progress frame. -/
def progressEvent (stage : String) (p : Nat) : Event := ⟨stage, some p, none, none⟩

/-- A terminal error frame with its error-kind tag. -/
def errorEvent (tag : String) : Event := ⟨"error", none, some tag, none⟩

/-- The frames the download loop yields before each download:
`30 + int((i / total) * 50)` for i = 0 .. total-1 (the float arithmetic is an
exact floor for every realistic count, so natural division models it). -/
def downloadProgressEvents (total : Nat) : List Event :=
  (List.range total).map fun i => progressEvent "downloading_images" (30 + i * 50 / total)

/-- Model of `event_generator` (lines 181-260) as the list of frames it
yields.  The error tags and checkpoint percentages are the source's; the
outer generic handler (any non-`HTTPStatusError` exception, e.g. a transport
failure of the HTML fetch, or an unreachable `build_pdf` failure) yields the
`unknown` tag. -/
def event_generator (fetch : FetchResult) (download : DownloadOracle)
    (req_filters : Option FilterSettings) : List Event :=
  let filters := req_filters.getD defaultFilters
  progressEvent "fetching_html" 0 ::
    match fetch with
    | .statusError _ => [errorEvent "fetch_failed"]
    | .transportError => [errorEvent "unknown"]
    | .ok doc =>
      progressEvent "fetching_html" 10 :: progressEvent "extracting_urls" 10 ::
        (let urls := extract_image_urls doc
         if urls = [] then [errorEvent "no_images"]
         else
           progressEvent "extracting_urls" 20 :: progressEvent "filtering_domains" 20 ::
             (let urls2 := urls.filter fun u => domain_allowed u filters.allowed_domains
              if urls2 = [] then [errorEvent "filtered_out"]
              else
                progressEvent "filtering_domains" 25 :: progressEvent "trimming_edges" 25 ::
                  (let urls3 := apply_edge_trimming urls2 filters.trim_leading filters.trim_trailing
                   if urls3 = [] then [errorEvent "trimmed_all"]
                   else
                     progressEvent "trimming_edges" 30 ::
                       (let kept := downloadStageStream download filters urls3
                        downloadProgressEvents urls3.length ++
                          if kept = [] then [errorEvent "no_valid_images"]
                          else
                            progressEvent "downloading_images" 80 ::
                              progressEvent "generating_pdf" 80 ::
                                match build_pdf kept with
                                | some pages =>
                                  [progressEvent "generating_pdf" 95,
                                   ⟨"completed", some 100, none, some pages⟩]
                                | none => [errorEvent "unknown"]))))

/-- Progress percentages carried by a frame list, in order. -/
def progressesOf (evs : List Event) : List Nat := evs.filterMap Event.progress

/-! Spec-side definitions, written from the specification's words, to be
compared with the source-derived models above. -/

/-- Extractor following claim C3's words literally: the lazy-load attribute
is selected whenever it is present, else the eager attribute. -/
def extractSpecLazyIfPresent (doc : List ImgTag) : List String :=
  doc.filterMap fun img =>
    match img.dataSrc with
    | some v => some v
    | none => img.src

/-- An eager source attribute counts only when present and non-empty. -/
def eagerNonEmpty : Option String → Option String
  | some w => if w = "" then none else some w
  | none => none

/-- Per-tag selection of the amended claim C3: the lazy-load attribute when
present and non-empty, else the eager attribute when present and non-empty,
else nothing. -/
def selectSrcAmended (img : ImgTag) : Option String :=
  match img.dataSrc with
  | some v => if v = "" then eagerNonEmpty img.src else some v
  | none => eagerNonEmpty img.src

/-- The width/height ratio as the spec describes it: zero height gives zero. -/
def aspectSpec (width height : Nat) : ℚ :=
  if height = 0 then 0 else (width : ℚ) / (height : ℚ)

/-- The download stage as claim C7 describes it: the order-preserving
subsequence of the URL list whose downloads succeed and whose payloads pass
the quality filter. -/
def keptSpec (download : DownloadOracle) (filters : FilterSettings)
    (urls : List String) : List ImgBytes :=
  urls.filterMap fun url =>
    match download url with
    | some img_bytes =>
      if image_passes_filters img_bytes filters then some img_bytes else none
    | none => none

/-- A frame list that terminates in a single error frame carrying `tag`:
the error frame is last, it is the only error frame, and no completed frame
ever occurs. -/
def EndsInError (evs : List Event) (tag : String) : Prop :=
  evs.getLast? = some (errorEvent tag) ∧
    evs.filter (fun e => e.stage == "error") = [errorEvent tag] ∧
    ∀ e ∈ evs, e.stage ≠ "completed"

/-! Helper lemmas. -/

theorem sublistB_eq_true_iff (needle : List Char) (hay : List Char) :
    sublistB needle hay = true ↔ needle <:+: hay := by
  induction hay with
  | nil =>
    simp only [sublistB, List.isEmpty_iff, List.infix_nil]
  | cons c rest ih =>
    simp only [sublistB, Bool.or_eq_true, List.isPrefixOf_iff_prefix, ih,
      List.infix_cons_iff]

/-! Claim theorems. -/

/-- C1 (code bug): the claim says trimming never keeps elements once
`leading + trailing` reaches the list length, but the Python slice
`trimmed[: len(trimmed) - trailing]` has a negative stop when `trailing`
exceeds the remaining length, so trimming `["a", "b"]` by (0, 3) keeps
`["a"]` instead of producing the empty list. -/
theorem C1_overtrim_keeps_elements :
    apply_edge_trimming ["a", "b"] 0 3 = ["a"] ∧ (["a"] : List String) ≠ [] := by
  constructor
  · rfl
  · decide

/-- C5 (confirmed): `domain_allowed` is true exactly when some allowed
string occurs as a contiguous substring of the URL's parsed host; in
particular an exact host match and a mere substring occurrence (a subdomain
of `mmbiz.qpic.cn`) are both accepted. -/
theorem C5_domain_allowed_substring :
    (∀ (url : String) (ds : List String),
        domain_allowed url ds = true ↔
          ∃ d ∈ ds, d.toList <:+: (netlocOf url).toList) ∧
      netlocOf "https://mmbiz.qpic.cn/a.jpg" = "mmbiz.qpic.cn" ∧
      domain_allowed "https://mmbiz.qpic.cn/a.jpg" ["mmbiz.qpic.cn"] = true ∧
      netlocOf "https://sub.mmbiz.qpic.cn/a.jpg" = "sub.mmbiz.qpic.cn" ∧
      domain_allowed "https://sub.mmbiz.qpic.cn/a.jpg" ["mmbiz.qpic.cn"] = true := by
  refine ⟨fun url ds => ?_, by decide, by decide, by decide, by decide⟩
  simp only [domain_allowed, List.any_eq_true, sublistB_eq_true_iff]

/-- C9 (counterexample): the claim says a URL with an empty parsed host is
rejected regardless of the allowed list, but Python's substring test accepts
the empty string inside the empty host, so the scheme-less URL
`mmbiz.qpic.cn/x` is accepted when the allowed list contains `""`. -/
theorem C9_counterexample :
    netlocOf "mmbiz.qpic.cn/x" = "" ∧
      domain_allowed "mmbiz.qpic.cn/x" [""] = true := by
  constructor
  · rfl
  · rfl

/-- C9 (amended): `domain_allowed` inspects only the URL's parsed host: a
URL whose parsed host is empty is rejected for every allowed list whose
entries are all non-empty, and any two URLs with the same parsed host are
accepted or rejected alike, so an allowed string occurring only in the path
or query never causes acceptance. -/
theorem C9_domain_host_only :
    (∀ (url : String) (ds : List String), netlocOf url = "" →
        (∀ d ∈ ds, d ≠ "") → domain_allowed url ds = false) ∧
      ∀ (u1 u2 : String) (ds : List String), netlocOf u1 = netlocOf u2 →
        domain_allowed u1 ds = domain_allowed u2 ds := by
  constructor
  · intro url ds hempty hne
    rw [Bool.eq_false_iff]
    intro hany
    rw [domain_allowed, List.any_eq_true] at hany
    obtain ⟨d, hd, hsub⟩ := hany
    rw [sublistB_eq_true_iff, hempty] at hsub
    have hnil : d.toList <:+: ([] : List Char) := hsub
    rw [List.infix_nil] at hnil
    exact hne d hd (String.toList_inj.mp (hnil.trans rfl))
  · intro u1 u2 ds h
    rw [domain_allowed, domain_allowed, h]

/-- C9 (witness for the amended theorem): the scheme-less URL of the claim
is rejected under the default allowed list, and two URLs sharing a host are
treated alike. -/
theorem C9_domain_host_only_witness :
    domain_allowed "mmbiz.qpic.cn/x" ["mmbiz.qpic.cn"] = false ∧
      domain_allowed "http://a.com/x" ["mmbiz.qpic.cn"] =
        domain_allowed "https://a.com/y" ["mmbiz.qpic.cn"] :=
  ⟨C9_domain_host_only.1 "mmbiz.qpic.cn/x" ["mmbiz.qpic.cn"] (by decide)
      (by decide),
    C9_domain_host_only.2 "http://a.com/x" "https://a.com/y" ["mmbiz.qpic.cn"]
      (by decide)⟩

/-- C3 (counterexample): the claim selects the lazy-load attribute whenever
it is present, but the source's `img.get("data-src") or img.get("src")`
falls through on an empty `data-src`: a tag with `data-src = ""` and a
non-empty `src` yields the eager value, not the (empty) lazy one. -/
theorem C3_counterexample :
    extract_image_urls [⟨some "", some "https://mmbiz.qpic.cn/a.jpg"⟩] =
        ["https://mmbiz.qpic.cn/a.jpg"] ∧
      extractSpecLazyIfPresent [⟨some "", some "https://mmbiz.qpic.cn/a.jpg"⟩] =
        [""] ∧
      (["https://mmbiz.qpic.cn/a.jpg"] : List String) ≠ [""] := by
  refine ⟨rfl, rfl, by decide⟩

/-- C3 (amended): `extract_image_urls` returns, in document order, for each
img tag the lazy-load attribute when present and non-empty, else the eager
attribute when present and non-empty, and nothing otherwise; in particular a
tag carrying both attributes with a non-empty lazy value contributes the
lazy value. -/
theorem C3_extract_amended :
    (∀ doc : List ImgTag, extract_image_urls doc = doc.filterMap selectSrcAmended) ∧
      ∀ (a b : String) (rest : List ImgTag), a ≠ "" →
        extract_image_urls (⟨some a, some b⟩ :: rest) =
          a :: extract_image_urls rest := by
  have hfun : ∀ img : ImgTag,
      (let chosen := pyOrStr img.dataSrc img.src
       if pyTruthy chosen then chosen else none) = selectSrcAmended img := by
    intro img
    obtain ⟨d, s⟩ := img
    cases d with
    | none =>
      cases s with
      | none => rfl
      | some w =>
        by_cases hw : w = "" <;>
          simp [pyOrStr, pyTruthy, selectSrcAmended, eagerNonEmpty, hw]
    | some v =>
      by_cases hv : v = ""
      · cases s with
        | none => simp [pyOrStr, pyTruthy, selectSrcAmended, eagerNonEmpty, hv]
        | some w =>
          by_cases hw : w = "" <;>
            simp [pyOrStr, pyTruthy, selectSrcAmended, eagerNonEmpty, hv, hw]
      · simp [pyOrStr, pyTruthy, selectSrcAmended, eagerNonEmpty, hv]
  constructor
  · intro doc
    unfold extract_image_urls
    exact List.filterMap_congr fun img _ => hfun img
  · intro a b rest ha
    unfold extract_image_urls
    rw [List.filterMap_cons]
    simp [pyOrStr, pyTruthy, ha]

/-- C3 (witness for the amended theorem): a tag with two distinct non-empty
attributes contributes its lazy-load value. -/
theorem C3_extract_amended_witness :
    extract_image_urls
        [⟨some "https://mmbiz.qpic.cn/lazy.jpg", some "https://mmbiz.qpic.cn/eager.jpg"⟩] =
      "https://mmbiz.qpic.cn/lazy.jpg" :: extract_image_urls [] :=
  C3_extract_amended.2 "https://mmbiz.qpic.cn/lazy.jpg"
    "https://mmbiz.qpic.cn/eager.jpg" [] (by decide)

/-- C10 (confirmed): `extract_image_urls` treats an empty attribute value as
absent: a tag whose `data-src` is the empty string behaves exactly like a
tag without `data-src`, so its non-empty `src` is selected instead, and a
tag whose attributes are all empty or missing contributes nothing. -/
theorem C10_empty_attr_absent :
    (∀ (s : Option String) (rest : List ImgTag),
        extract_image_urls (⟨some "", s⟩ :: rest) =
          extract_image_urls (⟨none, s⟩ :: rest)) ∧
      (∀ (v : String) (rest : List ImgTag), v ≠ "" →
        extract_image_urls (⟨some "", some v⟩ :: rest) =
          v :: extract_image_urls rest) ∧
      ∀ rest : List ImgTag,
        extract_image_urls (⟨some "", some ""⟩ :: rest) = extract_image_urls rest ∧
          extract_image_urls (⟨some "", none⟩ :: rest) = extract_image_urls rest := by
  refine ⟨fun s rest => ?_, fun v rest hv => ?_, fun rest => ⟨?_, ?_⟩⟩
  · unfold extract_image_urls
    rw [List.filterMap_cons, List.filterMap_cons]
    rfl
  · unfold extract_image_urls
    rw [List.filterMap_cons]
    simp [pyOrStr, pyTruthy, hv]
  · unfold extract_image_urls
    rw [List.filterMap_cons]
    rfl
  · unfold extract_image_urls
    rw [List.filterMap_cons]
    rfl

/-- C10 (witness): a tag with an empty `data-src` and a non-empty `src`
contributes the `src` value. -/
theorem C10_empty_attr_absent_witness :
    extract_image_urls [⟨some "", some "https://mmbiz.qpic.cn/a.jpg"⟩] =
      "https://mmbiz.qpic.cn/a.jpg" :: extract_image_urls [] :=
  C10_empty_attr_absent.2.1 "https://mmbiz.qpic.cn/a.jpg" [] (by decide)

/-- C4 (confirmed): `image_passes_filters` accepts exactly the payloads that
decode to some (width, height) with width and height at least the minima,
area at least the minimum area, and width/height (zero when height is zero)
inside the inclusive aspect window; undecodable payloads are rejected, never
an error, and boundary values pass. -/
theorem C4_image_passes_filters_iff (img_bytes : ImgBytes) (filters : FilterSettings) :
    image_passes_filters img_bytes filters = true ↔
      ∃ w h : Nat, img_bytes.decoded = some (w, h) ∧
        filters.min_width ≤ w ∧ filters.min_height ≤ h ∧
        filters.min_area ≤ w * h ∧
        filters.aspect_ratio_min ≤ aspectSpec w h ∧
        aspectSpec w h ≤ filters.aspect_ratio_max := by
  cases hd : img_bytes.decoded with
  | none => simp [image_passes_filters, hd]
  | some wh =>
    obtain ⟨w, h⟩ := wh
    have haspect : (if h ≠ 0 then mkRat w h else 0) = aspectSpec w h := by
      by_cases hz : h = 0
      · simp [aspectSpec, hz]
      · rw [if_pos hz, aspectSpec, if_neg hz, Rat.mkRat_eq_div]
        norm_num
    simp only [image_passes_filters, hd, haspect]
    by_cases h1 : w < filters.min_width ∨ h < filters.min_height
    · rw [if_pos h1]
      simp only [Bool.false_eq_true, false_iff]
      rintro ⟨w', h', heq, hw, hh, -, -, -⟩
      obtain ⟨rfl, rfl⟩ : w = w' ∧ h = h' := by
        simpa [Prod.ext_iff] using heq
      rcases h1 with h1 | h1 <;> omega
    · rw [if_neg h1]
      by_cases h2 : w * h < filters.min_area
      · rw [if_pos h2]
        simp only [Bool.false_eq_true, false_iff]
        rintro ⟨w', h', heq, -, -, harea, -, -⟩
        obtain ⟨rfl, rfl⟩ : w = w' ∧ h = h' := by
          simpa [Prod.ext_iff] using heq
        omega
      · rw [if_neg h2]
        by_cases h3 : filters.aspect_ratio_min ≤ aspectSpec w h ∧
            aspectSpec w h ≤ filters.aspect_ratio_max
        · rw [if_neg (not_not_intro h3)]
          simp only [true_iff]
          push_neg at h1
          exact ⟨w, h, rfl, h1.1, h1.2, le_of_not_lt h2, h3.1, h3.2⟩
        · rw [if_pos h3]
          simp only [Bool.false_eq_true, false_iff]
          rintro ⟨w', h', heq, -, -, -, hmin, hmax⟩
          obtain ⟨rfl, rfl⟩ : w = w' ∧ h = h' := by
            simpa [Prod.ext_iff] using heq
          exact h3 ⟨hmin, hmax⟩

/-- C7 (confirmed): in both orchestrator modes the download stage never
fails and keeps exactly the order-preserving subsequence of the trimmed URL
list whose downloads succeed and whose payloads pass the quality filter. -/
theorem C7_download_stage (download : DownloadOracle) (filters : FilterSettings)
    (urls : List String) :
    downloadStageSync download filters urls = keptSpec download filters urls ∧
      downloadStageStream download filters urls = keptSpec download filters urls := by
  induction urls with
  | nil => exact ⟨rfl, rfl⟩
  | cons u rest ih =>
    simp only [downloadStageSync, downloadStageStream, keptSpec,
      List.filterMap_cons] at ih ⊢
    cases download u with
    | none => exact ih
    | some b =>
      by_cases hp : image_passes_filters b filters <;> simp [hp, ih.1, ih.2]

theorem page_width_pos : (0 : ℚ) < page_width := by norm_num [page_width]

theorem page_height_pos : (0 : ℚ) < page_height := by norm_num [page_height]

/-- Layout facts about a single drawn page with positive pixel dimensions. -/
theorem drawPage_props (b : ImgBytes) (w h : Nat) (hw : 0 < w) (hh : 0 < h) :
    (drawPage b w h).source = b ∧
      (drawPage b w h).draw_w = (w : ℚ) * min (min (page_width / w) (page_height / h)) 1 ∧
      (drawPage b w h).draw_h = (h : ℚ) * min (min (page_width / w) (page_height / h)) 1 ∧
      (drawPage b w h).draw_w ≤ page_width ∧
      (drawPage b w h).draw_h ≤ page_height ∧
      (drawPage b w h).draw_w ≤ (w : ℚ) ∧
      (drawPage b w h).draw_h ≤ (h : ℚ) ∧
      (drawPage b w h).draw_w * (h : ℚ) = (drawPage b w h).draw_h * (w : ℚ) ∧
      (drawPage b w h).x = (page_width - (drawPage b w h).draw_w) / 2 ∧
      (drawPage b w h).y = (page_height - (drawPage b w h).draw_h) / 2 := by
  have hwq : (0 : ℚ) < (w : ℚ) := by exact_mod_cast hw
  have hhq : (0 : ℚ) < (h : ℚ) := by exact_mod_cast hh
  have hscale1 : min (min (page_width / w) (page_height / h)) 1 ≤ 1 :=
    min_le_right _ _
  have hscalew : min (min (page_width / w) (page_height / h)) 1 ≤ page_width / w :=
    le_trans (min_le_left _ _) (min_le_left _ _)
  have hscaleh : min (min (page_width / w) (page_height / h)) 1 ≤ page_height / h :=
    le_trans (min_le_left _ _) (min_le_right _ _)
  refine ⟨rfl, rfl, rfl, ?_, ?_, ?_, ?_, ?_, rfl, rfl⟩
  · calc (drawPage b w h).draw_w
        ≤ (w : ℚ) * (page_width / w) :=
          mul_le_mul_of_nonneg_left hscalew hwq.le
      _ = page_width := by rw [mul_comm]; exact div_mul_cancel₀ _ hwq.ne'
  · calc (drawPage b w h).draw_h
        ≤ (h : ℚ) * (page_height / h) :=
          mul_le_mul_of_nonneg_left hscaleh hhq.le
      _ = page_height := by rw [mul_comm]; exact div_mul_cancel₀ _ hhq.ne'
  · calc (drawPage b w h).draw_w
        ≤ (w : ℚ) * 1 := mul_le_mul_of_nonneg_left hscale1 hwq.le
      _ = (w : ℚ) := mul_one _
  · calc (drawPage b w h).draw_h
        ≤ (h : ℚ) * 1 := mul_le_mul_of_nonneg_left hscale1 hhq.le
      _ = (h : ℚ) := mul_one _
  · show ((w : ℚ) * _) * (h : ℚ) = ((h : ℚ) * _) * (w : ℚ)
    ring

/-- When every payload decodes with positive dimensions, `build_pdf`
succeeds and draws exactly one page per payload, in order. -/
theorem build_pdf_some (images : List ImgBytes)
    (hdec : ∀ b ∈ images, ∃ w h : Nat, b.decoded = some (w, h) ∧ 0 < w ∧ 0 < h) :
    ∃ pages : List PdfPage, build_pdf images = some pages ∧
      List.Forall₂ (fun (b : ImgBytes) (p : PdfPage) => ∃ w h : Nat,
        b.decoded = some (w, h) ∧ 0 < w ∧ 0 < h ∧ p = drawPage b w h) images pages := by
  induction images with
  | nil => exact ⟨[], rfl, List.Forall₂.nil⟩
  | cons b rest ih =>
    obtain ⟨w, h, hdecb, hw, hh⟩ := hdec b (by simp)
    obtain ⟨pages, hps, hfa⟩ := ih fun x hx => hdec x (by simp [hx])
    refine ⟨drawPage b w h :: pages, ?_,
      List.Forall₂.cons ⟨w, h, hdecb, hw, hh, rfl⟩ hfa⟩
    simp only [build_pdf, hdecb, hps]
    rw [if_pos ⟨Nat.pos_iff_ne_zero.mp hw, Nat.pos_iff_ne_zero.mp hh⟩]

/-- C6 (confirmed): for a non-empty list of decodable payloads, `build_pdf`
produces one page per payload in input order; each page's image is uniformly
scaled by `min(page_width/width, page_height/height, 1)` — never upscaled,
fitting inside the landscape A4 page on both axes, aspect ratio preserved —
and centred on the page. -/
theorem C6_build_pdf_layout (images : List ImgBytes) (hne : images ≠ [])
    (hdec : ∀ b ∈ images, ∃ w h : Nat, b.decoded = some (w, h) ∧ 0 < w ∧ 0 < h) :
    ∃ pages : List PdfPage, build_pdf images = some pages ∧
      pages.length = images.length ∧ pages ≠ [] ∧
      List.Forall₂ (fun (b : ImgBytes) (p : PdfPage) =>
        p.source = b ∧ ∃ w h : Nat, b.decoded = some (w, h) ∧
          p.draw_w = (w : ℚ) * min (min (page_width / w) (page_height / h)) 1 ∧
          p.draw_h = (h : ℚ) * min (min (page_width / w) (page_height / h)) 1 ∧
          p.draw_w ≤ page_width ∧ p.draw_h ≤ page_height ∧
          p.draw_w ≤ (w : ℚ) ∧ p.draw_h ≤ (h : ℚ) ∧
          p.draw_w * (h : ℚ) = p.draw_h * (w : ℚ) ∧
          p.x = (page_width - p.draw_w) / 2 ∧ p.y = (page_height - p.draw_h) / 2)
        images pages := by
  obtain ⟨pages, hbp, hfa⟩ := build_pdf_some images hdec
  have hlen : pages.length = images.length := hfa.length_eq.symm
  refine ⟨pages, hbp, hlen, ?_, ?_⟩
  · intro hnil
    apply hne
    rw [← List.length_eq_zero, ← hlen, hnil]
    rfl
  · refine hfa.imp ?_
    rintro b p ⟨w, h, hdecb, hw, hh, rfl⟩
    obtain ⟨h1, h2, h3, h4, h5, h6, h7, h8, h9, h10⟩ := drawPage_props b w h hw hh
    exact ⟨h1, w, h, hdecb, h2, h3, h4, h5, h6, h7, h8, h9, h10⟩

/-- C6 (witness): a single full-HD payload yields a one-page PDF with the
stated layout properties. -/
theorem C6_build_pdf_layout_witness :
    ∃ pages : List PdfPage, build_pdf [⟨0, some (1920, 1080)⟩] = some pages ∧
      pages.length = [(⟨0, some (1920, 1080)⟩ : ImgBytes)].length ∧ pages ≠ [] ∧
      List.Forall₂ (fun (b : ImgBytes) (p : PdfPage) =>
        p.source = b ∧ ∃ w h : Nat, b.decoded = some (w, h) ∧
          p.draw_w = (w : ℚ) * min (min (page_width / w) (page_height / h)) 1 ∧
          p.draw_h = (h : ℚ) * min (min (page_width / w) (page_height / h)) 1 ∧
          p.draw_w ≤ page_width ∧ p.draw_h ≤ page_height ∧
          p.draw_w ≤ (w : ℚ) ∧ p.draw_h ≤ (h : ℚ) ∧
          p.draw_w * (h : ℚ) = p.draw_h * (w : ℚ) ∧
          p.x = (page_width - p.draw_w) / 2 ∧ p.y = (page_height - p.draw_h) / 2)
        [⟨0, some (1920, 1080)⟩] pages :=
  C6_build_pdf_layout [⟨0, some (1920, 1080)⟩] (by decide)
    (by
      intro b hb
      rw [List.mem_singleton] at hb
      subst hb
      exact ⟨1920, 1080, rfl, by norm_num, by norm_num⟩)

/-- C2 (counterexample): the claim promises four distinct not-found
conditions with stage-specific messages, one per empty-list stage, but the
synchronous endpoint checks emptiness only once after domain filtering and
trimming together: a run whose domain filter removes everything and a run
whose trim removes everything produce the identical 404 response, so
emptiness after domain filtering and emptiness after trimming do not map to
distinct conditions. -/
theorem C2_counterexample :
    process (.ok [⟨some "https://evil.com/a.jpg", none⟩]) (fun _ => none)
        defaultFilters = .error ⟨404, "过滤后没有图片 URL"⟩ ∧
      process (.ok [⟨some "https://mmbiz.qpic.cn/1.jpg", none⟩,
          ⟨some "https://mmbiz.qpic.cn/2.jpg", none⟩]) (fun _ => none)
        defaultFilters = .error ⟨404, "过滤后没有图片 URL"⟩ := by
  constructor
  · rfl
  · rfl

/-- C2 (amended): in synchronous mode an HTML-fetch HTTP error propagates
the upstream status code, any other fetch failure maps to 502, emptiness
after extraction and emptiness after the download/quality stage map to
distinct 404 conditions with stage-specific messages, while emptiness after
domain filtering and emptiness after trimming are detected by one shared
check after trimming and map to a single common 404 condition and message. -/
theorem C2_sync_error_mapping (download : DownloadOracle) (f : FilterSettings) :
    (∀ code, process (.statusError code) download f =
        .error ⟨code, "无法获取文章内容"⟩) ∧
      process .transportError download f = .error ⟨502, "抓取文章失败"⟩ ∧
      (∀ doc, extract_image_urls doc = [] →
        process (.ok doc) download f = .error ⟨404, "未找到图片标签"⟩) ∧
      (∀ doc, extract_image_urls doc ≠ [] →
        apply_edge_trimming
            ((extract_image_urls doc).filter fun u => domain_allowed u f.allowed_domains)
            f.trim_leading f.trim_trailing = [] →
        process (.ok doc) download f = .error ⟨404, "过滤后没有图片 URL"⟩) ∧
      ∀ doc, extract_image_urls doc ≠ [] →
        apply_edge_trimming
            ((extract_image_urls doc).filter fun u => domain_allowed u f.allowed_domains)
            f.trim_leading f.trim_trailing ≠ [] →
        downloadStageSync download f
            (apply_edge_trimming
              ((extract_image_urls doc).filter fun u => domain_allowed u f.allowed_domains)
              f.trim_leading f.trim_trailing) = [] →
        process (.ok doc) download f = .error ⟨404, "没有符合条件的 PPT 图片"⟩ := by
  refine ⟨fun code => rfl, rfl, fun doc h1 => ?_, fun doc h1 h2 => ?_,
    fun doc h1 h2 h3 => ?_⟩
  · simp [process, h1]
  · simp [process, h1, h2]
  · simp [process, h1, h2, h3]

/-- C2 (witness for the amended theorem): concrete runs hitting each stage
of the synchronous error mapping. -/
theorem C2_sync_error_mapping_witness :
    process (.statusError 403) (fun _ => none) defaultFilters =
        .error ⟨403, "无法获取文章内容"⟩ ∧
      process (.ok []) (fun _ => none) defaultFilters =
        .error ⟨404, "未找到图片标签"⟩ ∧
      process (.ok [⟨some "https://evil.org/b.jpg", none⟩]) (fun _ => none)
        defaultFilters = .error ⟨404, "过滤后没有图片 URL"⟩ ∧
      process (.ok [⟨some "https://mmbiz.qpic.cn/a1.jpg", none⟩,
          ⟨some "https://mmbiz.qpic.cn/a2.jpg", none⟩,
          ⟨some "https://mmbiz.qpic.cn/a3.jpg", none⟩,
          ⟨some "https://mmbiz.qpic.cn/a4.jpg", none⟩,
          ⟨some "https://mmbiz.qpic.cn/a5.jpg", none⟩]) (fun _ => none)
        defaultFilters = .error ⟨404, "没有符合条件的 PPT 图片"⟩ :=
  ⟨(C2_sync_error_mapping (fun _ => none) defaultFilters).1 403,
    (C2_sync_error_mapping (fun _ => none) defaultFilters).2.2.1 [] rfl,
    (C2_sync_error_mapping (fun _ => none) defaultFilters).2.2.2.1
      [⟨some "https://evil.org/b.jpg", none⟩] (by decide) (by decide),
    (C2_sync_error_mapping (fun _ => none) defaultFilters).2.2.2.2
      [⟨some "https://mmbiz.qpic.cn/a1.jpg", none⟩,
        ⟨some "https://mmbiz.qpic.cn/a2.jpg", none⟩,
        ⟨some "https://mmbiz.qpic.cn/a3.jpg", none⟩,
        ⟨some "https://mmbiz.qpic.cn/a4.jpg", none⟩,
        ⟨some "https://mmbiz.qpic.cn/a5.jpg", none⟩]
      (by decide) (by decide) (by decide)⟩

/-! Helper lemmas for the progressive mode. -/

theorem apply_edge_trimming_nil (leading trailing : Nat) :
    apply_edge_trimming [] leading trailing = [] := by
  unfold apply_edge_trimming pySliceTo
  split_ifs <;> simp

theorem filterMap_some_map {α β : Type} (g : α → β) (l : List α) :
    List.filterMap (fun a => some (g a)) l = l.map g := by
  induction l with
  | nil => rfl
  | cons a l ih => simp [List.filterMap_cons, ih]

theorem filterMap_progress_downloadProgressEvents (total : Nat) :
    List.filterMap Event.progress (downloadProgressEvents total) =
      (List.range total).map fun i => 30 + i * 50 / total := by
  unfold downloadProgressEvents
  rw [List.filterMap_map]
  have hcomp : Event.progress ∘
      (fun i => progressEvent "downloading_images" (30 + i * 50 / total)) =
      fun i => some (30 + i * 50 / total) := rfl
  rw [hcomp]
  exact filterMap_some_map _ _

theorem filter_error_downloadProgressEvents (total : Nat) :
    (downloadProgressEvents total).filter (fun e => e.stage == "error") = [] := by
  rw [List.filter_eq_nil_iff]
  intro e he
  rw [downloadProgressEvents, List.mem_map] at he
  obtain ⟨i, -, rfl⟩ := he
  show ¬(("downloading_images" : String) == "error") = true
  decide

theorem stage_downloadProgressEvents (total : Nat) (e : Event)
    (he : e ∈ downloadProgressEvents total) : e.stage = "downloading_images" := by
  rw [downloadProgressEvents, List.mem_map] at he
  obtain ⟨i, -, rfl⟩ := he
  rfl

theorem downloadProgress_le (total i : Nat) (hi : i < total) :
    30 + i * 50 / total ≤ 80 := by
  have h1 : i * 50 / total ≤ 50 := by
    have hm : i * 50 ≤ total * 50 := Nat.mul_le_mul_right _ (le_of_lt hi)
    calc i * 50 / total ≤ total * 50 / total := Nat.div_le_div_right hm
      _ = 50 := by
        rw [Nat.mul_comm]
        exact Nat.mul_div_cancel _ (by omega)
  omega

theorem chain_le_downloadProgress (total : Nat) :
    List.Chain' (· ≤ ·) ((List.range total).map fun i => 30 + i * 50 / total) := by
  apply List.Pairwise.chain'
  rw [List.pairwise_map]
  refine (List.pairwise_lt_range total).imp ?_
  intro a b hab
  have := Nat.div_le_div_right (c := total) (Nat.mul_le_mul_right 50 hab.le)
  omega

theorem downloadProgress_head (total : Nat) (h : total ≠ 0) :
    ((List.range total).map fun i => 30 + i * 50 / total).head? = some 30 := by
  obtain ⟨t, rfl⟩ := Nat.exists_eq_succ_of_ne_zero h
  rw [List.range_succ_eq_map]
  simp

theorem downloadProgress_getLast (total : Nat) (h : total ≠ 0) :
    ∃ p, ((List.range total).map fun i => 30 + i * 50 / total).getLast? = some p ∧
      30 ≤ p ∧ p ≤ 80 := by
  obtain ⟨t, rfl⟩ := Nat.exists_eq_succ_of_ne_zero h
  refine ⟨30 + t * 50 / (t + 1), ?_, Nat.le_add_right 30 _,
    downloadProgress_le _ _ (Nat.lt_succ_self t)⟩
  rw [List.range_succ, List.map_append, List.map_singleton, List.getLast?_concat]

/-- The progress percentages of a full successful progressive run form a
non-decreasing sequence. -/
theorem chain_le_success_progresses (total : Nat) (h : total ≠ 0) :
    List.Chain' (· ≤ ·)
      ([0, 10, 10, 20, 20, 25, 25, 30] ++
        ((List.range total).map fun i => 30 + i * 50 / total) ++
        [80, 80, 95, 100]) := by
  rw [List.append_assoc, List.chain'_append]
  refine ⟨by simp [List.chain'_cons], ?_, ?_⟩
  · rw [List.chain'_append]
    refine ⟨chain_le_downloadProgress total, by simp [List.chain'_cons], ?_⟩
    intro x hx y hy
    obtain ⟨p, hp, -, hple⟩ := downloadProgress_getLast total h
    rw [hp, Option.mem_def, Option.some_inj] at hx
    subst hx
    simp only [List.head?_cons, Option.mem_def, Option.some_inj] at hy
    omega
  · intro x hx y hy
    have hlast : ([0, 10, 10, 20, 20, 25, 25, 30] : List ℕ).getLast? = some 30 := rfl
    rw [hlast, Option.mem_def, Option.some_inj] at hx
    subst hx
    rw [List.head?_append, downloadProgress_head total h] at hy
    have hy30 : 30 = y := by
      simpa using hy
    omega

/-- Every payload kept by the progressive download loop passed the filter. -/
theorem downloadStageStream_passes (download : DownloadOracle)
    (filters : FilterSettings) :
    ∀ (urls : List String) (b : ImgBytes),
      b ∈ downloadStageStream download filters urls →
        image_passes_filters b filters = true := by
  intro urls
  induction urls with
  | nil => intro b hb; cases hb
  | cons u rest ih =>
    intro b hb
    simp only [downloadStageStream] at hb
    cases hdl : download u with
    | none =>
      simp only [hdl] at hb
      exact ih b hb
    | some bb =>
      simp only [hdl] at hb
      by_cases hp : image_passes_filters bb filters
      · rw [if_pos hp] at hb
        rcases List.mem_cons.mp hb with rfl | hb
        · exact hp
        · exact ih b hb
      · rw [if_neg hp] at hb
        exact ih b hb

/-- For valid settings, a payload passing the filter decodes with positive
dimensions (its width and height reach the positive minima). -/
theorem passes_pos_dims (filters : FilterSettings) (b : ImgBytes)
    (hv : filters.Valid) (hp : image_passes_filters b filters = true) :
    ∃ w h : Nat, b.decoded = some (w, h) ∧ 0 < w ∧ 0 < h := by
  cases hd : b.decoded with
  | none => simp [image_passes_filters, hd] at hp
  | some wh =>
    obtain ⟨w, h⟩ := wh
    simp only [image_passes_filters, hd] at hp
    refine ⟨w, h, rfl, ?_, ?_⟩ <;>
    · by_cases h1 : w < filters.min_width ∨ h < filters.min_height
      · rw [if_pos h1] at hp
        exact absurd hp (by simp)
      · push_neg at h1
        obtain ⟨-, hw2, hh2, -, -⟩ := hv
        omega

/-- C8 (confirmed): the progressive endpoint emits frames whose progress
percentages follow the fixed checkpoints 0, 10, 20, 25, 30 (each repeated at
its stage boundary), then values linearly interpolated from 30 toward 80
proportional to images processed, then 80, 95, 100, forming a non-decreasing
sequence; on success the final frame's stage is `completed` and carries the
payload `build_pdf` produces for the kept set, with no error frame; on any
terminal failure a single error frame with the stage's error-kind tag is
last, and no completed frame occurs. -/
theorem C8_stream_events (download : DownloadOracle) (rf : Option FilterSettings)
    (f : FilterSettings) (hf : f = rf.getD defaultFilters) :
    (∀ code, EndsInError (event_generator (.statusError code) download rf)
        "fetch_failed") ∧
    EndsInError (event_generator .transportError download rf) "unknown" ∧
    (∀ doc, extract_image_urls doc = [] →
      EndsInError (event_generator (.ok doc) download rf) "no_images") ∧
    (∀ doc, extract_image_urls doc ≠ [] →
      (extract_image_urls doc).filter (fun u => domain_allowed u f.allowed_domains) = [] →
      EndsInError (event_generator (.ok doc) download rf) "filtered_out") ∧
    (∀ doc,
      (extract_image_urls doc).filter (fun u => domain_allowed u f.allowed_domains) ≠ [] →
      apply_edge_trimming
          ((extract_image_urls doc).filter fun u => domain_allowed u f.allowed_domains)
          f.trim_leading f.trim_trailing = [] →
      EndsInError (event_generator (.ok doc) download rf) "trimmed_all") ∧
    (∀ doc urls3,
      urls3 = apply_edge_trimming
          ((extract_image_urls doc).filter fun u => domain_allowed u f.allowed_domains)
          f.trim_leading f.trim_trailing →
      urls3 ≠ [] → downloadStageStream download f urls3 = [] →
      EndsInError (event_generator (.ok doc) download rf) "no_valid_images") ∧
    ∀ doc urls3 kept,
      urls3 = apply_edge_trimming
          ((extract_image_urls doc).filter fun u => domain_allowed u f.allowed_domains)
          f.trim_leading f.trim_trailing →
      kept = downloadStageStream download f urls3 →
      urls3 ≠ [] → kept ≠ [] → f.Valid →
      ∃ pages : List PdfPage, build_pdf kept = some pages ∧
        event_generator (.ok doc) download rf =
          [progressEvent "fetching_html" 0, progressEvent "fetching_html" 10,
           progressEvent "extracting_urls" 10, progressEvent "extracting_urls" 20,
           progressEvent "filtering_domains" 20, progressEvent "filtering_domains" 25,
           progressEvent "trimming_edges" 25, progressEvent "trimming_edges" 30] ++
          (downloadProgressEvents urls3.length ++
            [progressEvent "downloading_images" 80, progressEvent "generating_pdf" 80,
             progressEvent "generating_pdf" 95, ⟨"completed", some 100, none, some pages⟩]) ∧
        progressesOf (event_generator (.ok doc) download rf) =
          [0, 10, 10, 20, 20, 25, 25, 30] ++
            (((List.range urls3.length).map fun i => 30 + i * 50 / urls3.length) ++
              [80, 80, 95, 100]) ∧
        List.Chain' (· ≤ ·) (progressesOf (event_generator (.ok doc) download rf)) ∧
        (event_generator (.ok doc) download rf).getLast? =
          some ⟨"completed", some 100, none, some pages⟩ ∧
        ∀ e ∈ event_generator (.ok doc) download rf, e.stage ≠ "error" := by
  subst hf
  refine ⟨fun code => ?_, ?_, fun doc h => ?_, fun doc h1 h2 => ?_,
    fun doc h1 h2 => ?_, fun doc urls3 hu3 h3 hk => ?_,
    fun doc urls3 kept hu3 hke h3 hkept hvalid => ?_⟩
  · have hev : event_generator (.statusError code) download rf =
        [progressEvent "fetching_html" 0, errorEvent "fetch_failed"] := rfl
    rw [EndsInError, hev]
    exact ⟨rfl, rfl, by decide⟩
  · have hev : event_generator .transportError download rf =
        [progressEvent "fetching_html" 0, errorEvent "unknown"] := rfl
    rw [EndsInError, hev]
    exact ⟨rfl, rfl, by decide⟩
  · have hev : event_generator (.ok doc) download rf =
        [progressEvent "fetching_html" 0, progressEvent "fetching_html" 10,
         progressEvent "extracting_urls" 10, errorEvent "no_images"] := by
      simp only [event_generator]
      rw [h, if_pos rfl]
    rw [EndsInError, hev]
    exact ⟨rfl, rfl, by decide⟩
  · have hev : event_generator (.ok doc) download rf =
        [progressEvent "fetching_html" 0, progressEvent "fetching_html" 10,
         progressEvent "extracting_urls" 10, progressEvent "extracting_urls" 20,
         progressEvent "filtering_domains" 20, errorEvent "filtered_out"] := by
      simp only [event_generator]
      rw [if_neg h1, h2, if_pos rfl]
    rw [EndsInError, hev]
    exact ⟨rfl, rfl, by decide⟩
  · have hne : extract_image_urls doc ≠ [] := by
      intro hnil
      apply h1
      rw [hnil]
      rfl
    have hev : event_generator (.ok doc) download rf =
        [progressEvent "fetching_html" 0, progressEvent "fetching_html" 10,
         progressEvent "extracting_urls" 10, progressEvent "extracting_urls" 20,
         progressEvent "filtering_domains" 20, progressEvent "filtering_domains" 25,
         progressEvent "trimming_edges" 25, errorEvent "trimmed_all"] := by
      simp only [event_generator]
      rw [if_neg hne, if_neg h1, h2, if_pos rfl]
    rw [EndsInError, hev]
    exact ⟨rfl, rfl, by decide⟩
  · subst hu3
    have h2 : (extract_image_urls doc).filter
        (fun u => domain_allowed u (rf.getD defaultFilters).allowed_domains) ≠ [] := by
      intro hnil
      apply h3
      rw [hnil, apply_edge_trimming_nil]
    have hne : extract_image_urls doc ≠ [] := by
      intro hnil
      apply h2
      rw [hnil]
      rfl
    have hev : event_generator (.ok doc) download rf =
        [progressEvent "fetching_html" 0, progressEvent "fetching_html" 10,
         progressEvent "extracting_urls" 10, progressEvent "extracting_urls" 20,
         progressEvent "filtering_domains" 20, progressEvent "filtering_domains" 25,
         progressEvent "trimming_edges" 25, progressEvent "trimming_edges" 30] ++
          (downloadProgressEvents
              (apply_edge_trimming
                ((extract_image_urls doc).filter fun u =>
                  domain_allowed u (rf.getD defaultFilters).allowed_domains)
                (rf.getD defaultFilters).trim_leading
                (rf.getD defaultFilters).trim_trailing).length ++
            [errorEvent "no_valid_images"]) := by
      simp only [event_generator]
      rw [if_neg hne, if_neg h2, if_neg h3, hk, if_pos rfl]
      simp only [List.cons_append, List.nil_append]
    rw [EndsInError, hev]
    refine ⟨?_, ?_, ?_⟩
    · rw [List.getLast?_append, List.getLast?_append]
      rfl
    · rw [List.filter_append, List.filter_append,
        filter_error_downloadProgressEvents]
      rfl
    · intro e he
      rcases List.mem_append.mp he with hA | hrest
      · simp only [List.mem_cons, List.not_mem_nil, or_false] at hA
        rcases hA with rfl | rfl | rfl | rfl | rfl | rfl | rfl | rfl <;> decide
      · rcases List.mem_append.mp hrest with hD | hE
        · rw [stage_downloadProgressEvents _ e hD]
          decide
        · simp only [List.mem_singleton] at hE
          subst hE
          decide
  · subst hu3
    subst hke
    have h2 : (extract_image_urls doc).filter
        (fun u => domain_allowed u (rf.getD defaultFilters).allowed_domains) ≠ [] := by
      intro hnil
      apply h3
      rw [hnil, apply_edge_trimming_nil]
    have hne : extract_image_urls doc ≠ [] := by
      intro hnil
      apply h2
      rw [hnil]
      rfl
    obtain ⟨pages, hpdf, -⟩ := build_pdf_some _ fun b hb =>
      passes_pos_dims _ b hvalid (downloadStageStream_passes download _ _ b hb)
    have htne : (apply_edge_trimming
        ((extract_image_urls doc).filter fun u =>
          domain_allowed u (rf.getD defaultFilters).allowed_domains)
        (rf.getD defaultFilters).trim_leading
        (rf.getD defaultFilters).trim_trailing).length ≠ 0 := by
      intro hl
      exact h3 (List.length_eq_zero.mp hl)
    refine ⟨pages, hpdf, ?_⟩
    have hev : event_generator (.ok doc) download rf =
        [progressEvent "fetching_html" 0, progressEvent "fetching_html" 10,
         progressEvent "extracting_urls" 10, progressEvent "extracting_urls" 20,
         progressEvent "filtering_domains" 20, progressEvent "filtering_domains" 25,
         progressEvent "trimming_edges" 25, progressEvent "trimming_edges" 30] ++
          (downloadProgressEvents
              (apply_edge_trimming
                ((extract_image_urls doc).filter fun u =>
                  domain_allowed u (rf.getD defaultFilters).allowed_domains)
                (rf.getD defaultFilters).trim_leading
                (rf.getD defaultFilters).trim_trailing).length ++
            [progressEvent "downloading_images" 80, progressEvent "generating_pdf" 80,
             progressEvent "generating_pdf" 95, ⟨"completed", some 100, none, some pages⟩]) := by
      simp only [event_generator]
      rw [if_neg hne, if_neg h2, if_neg h3, if_neg hkept, hpdf]
      simp only [List.cons_append, List.nil_append]
    have hprog : progressesOf (event_generator (.ok doc) download rf) =
        [0, 10, 10, 20, 20, 25, 25, 30] ++
          (((List.range (apply_edge_trimming
              ((extract_image_urls doc).filter fun u =>
                domain_allowed u (rf.getD defaultFilters).allowed_domains)
              (rf.getD defaultFilters).trim_leading
              (rf.getD defaultFilters).trim_trailing).length).map
              fun i => 30 + i * 50 /
                (apply_edge_trimming
                  ((extract_image_urls doc).filter fun u =>
                    domain_allowed u (rf.getD defaultFilters).allowed_domains)
                  (rf.getD defaultFilters).trim_leading
                  (rf.getD defaultFilters).trim_trailing).length) ++
            [80, 80, 95, 100]) := by
      rw [progressesOf, hev, List.filterMap_append, List.filterMap_append,
        filterMap_progress_downloadProgressEvents]
      rfl
    refine ⟨hev, hprog, ?_, ?_, ?_⟩
    · rw [hprog]
      rw [← List.append_assoc]
      rw [List.append_assoc]
      exact chain_le_success_progresses _ htne
    · rw [hev]
      rw [List.getLast?_append, List.getLast?_append]
      rfl
    · intro e he
      rw [hev] at he
      rcases List.mem_append.mp he with hA | hrest
      · simp only [List.mem_cons, List.not_mem_nil, or_false] at hA
        rcases hA with rfl | rfl | rfl | rfl | rfl | rfl | rfl | rfl <;> decide
      · rcases List.mem_append.mp hrest with hD | hE
        · rw [stage_downloadProgressEvents _ e hD]
          decide
        · simp only [List.mem_cons, List.not_mem_nil, or_false] at hE
          rcases hE with rfl | rfl | rfl | rfl
          · decide
          · decide
          · decide
          · show ("completed" : String) ≠ "error"
            decide

/-- C8 (witness): a concrete successful progressive run — five allowed
image tags, every download yielding a full-HD payload under the default
settings — together with a concrete fetch failure. -/
theorem C8_stream_events_witness :
    (∃ pages : List PdfPage,
      build_pdf [(⟨0, some (1920, 1080)⟩ : ImgBytes)] = some pages ∧
        event_generator
            (.ok [⟨some "https://mmbiz.qpic.cn/a1.jpg", none⟩,
              ⟨some "https://mmbiz.qpic.cn/a2.jpg", none⟩,
              ⟨some "https://mmbiz.qpic.cn/a3.jpg", none⟩,
              ⟨some "https://mmbiz.qpic.cn/a4.jpg", none⟩,
              ⟨some "https://mmbiz.qpic.cn/a5.jpg", none⟩])
            (fun _ => some ⟨0, some (1920, 1080)⟩) none =
          [progressEvent "fetching_html" 0, progressEvent "fetching_html" 10,
           progressEvent "extracting_urls" 10, progressEvent "extracting_urls" 20,
           progressEvent "filtering_domains" 20, progressEvent "filtering_domains" 25,
           progressEvent "trimming_edges" 25, progressEvent "trimming_edges" 30] ++
          (downloadProgressEvents (["https://mmbiz.qpic.cn/a3.jpg"] : List String).length ++
            [progressEvent "downloading_images" 80, progressEvent "generating_pdf" 80,
             progressEvent "generating_pdf" 95, ⟨"completed", some 100, none, some pages⟩]) ∧
        progressesOf (event_generator
            (.ok [⟨some "https://mmbiz.qpic.cn/a1.jpg", none⟩,
              ⟨some "https://mmbiz.qpic.cn/a2.jpg", none⟩,
              ⟨some "https://mmbiz.qpic.cn/a3.jpg", none⟩,
              ⟨some "https://mmbiz.qpic.cn/a4.jpg", none⟩,
              ⟨some "https://mmbiz.qpic.cn/a5.jpg", none⟩])
            (fun _ => some ⟨0, some (1920, 1080)⟩) none) =
          [0, 10, 10, 20, 20, 25, 25, 30] ++
            (((List.range (["https://mmbiz.qpic.cn/a3.jpg"] : List String).length).map
                fun i => 30 + i * 50 / (["https://mmbiz.qpic.cn/a3.jpg"] : List String).length) ++
              [80, 80, 95, 100]) ∧
        List.Chain' (· ≤ ·) (progressesOf (event_generator
            (.ok [⟨some "https://mmbiz.qpic.cn/a1.jpg", none⟩,
              ⟨some "https://mmbiz.qpic.cn/a2.jpg", none⟩,
              ⟨some "https://mmbiz.qpic.cn/a3.jpg", none⟩,
              ⟨some "https://mmbiz.qpic.cn/a4.jpg", none⟩,
              ⟨some "https://mmbiz.qpic.cn/a5.jpg", none⟩])
            (fun _ => some ⟨0, some (1920, 1080)⟩) none)) ∧
        (event_generator
            (.ok [⟨some "https://mmbiz.qpic.cn/a1.jpg", none⟩,
              ⟨some "https://mmbiz.qpic.cn/a2.jpg", none⟩,
              ⟨some "https://mmbiz.qpic.cn/a3.jpg", none⟩,
              ⟨some "https://mmbiz.qpic.cn/a4.jpg", none⟩,
              ⟨some "https://mmbiz.qpic.cn/a5.jpg", none⟩])
            (fun _ => some ⟨0, some (1920, 1080)⟩) none).getLast? =
          some ⟨"completed", some 100, none, some pages⟩ ∧
        ∀ e ∈ event_generator
            (.ok [⟨some "https://mmbiz.qpic.cn/a1.jpg", none⟩,
              ⟨some "https://mmbiz.qpic.cn/a2.jpg", none⟩,
              ⟨some "https://mmbiz.qpic.cn/a3.jpg", none⟩,
              ⟨some "https://mmbiz.qpic.cn/a4.jpg", none⟩,
              ⟨some "https://mmbiz.qpic.cn/a5.jpg", none⟩])
            (fun _ => some ⟨0, some (1920, 1080)⟩) none, e.stage ≠ "error") ∧
      EndsInError (event_generator (.statusError 404)
        (fun _ => some ⟨0, some (1920, 1080)⟩) none) "fetch_failed" :=
  ⟨(C8_stream_events (fun _ => some ⟨0, some (1920, 1080)⟩) none defaultFilters
        rfl).2.2.2.2.2.2
      [⟨some "https://mmbiz.qpic.cn/a1.jpg", none⟩,
        ⟨some "https://mmbiz.qpic.cn/a2.jpg", none⟩,
        ⟨some "https://mmbiz.qpic.cn/a3.jpg", none⟩,
        ⟨some "https://mmbiz.qpic.cn/a4.jpg", none⟩,
        ⟨some "https://mmbiz.qpic.cn/a5.jpg", none⟩]
      ["https://mmbiz.qpic.cn/a3.jpg"] [⟨0, some (1920, 1080)⟩]
      (by decide) (by decide) (by decide) (by decide) (by decide),
    (C8_stream_events (fun _ => some ⟨0, some (1920, 1080)⟩) none defaultFilters
        rfl).1 404⟩

end PPT
